import Mathlib

/-!
Verification of the k8s-rules-viewer repository: a shallow embedding of the
rule evaluator (internal/tui/rules.go), the KrakenD reference scanner
(internal/tui/krakend.go), the pod lookup helpers
(internal/kubernetes/pod.go) and the selector-resolution logic of
renderTUI (cmd main), together with theorems about them.

Collaborator calls (the Kubernetes API client and the JSON parser of the
standard library) are modelled as explicit function parameters returning
`Except`/`Option`; Go maps are modelled as association lists whose order
stands for one concrete iteration order of the map.
-/

namespace K8sRulesViewer

/-- Association-list lookup, modelling a Go map read `m[k]` (first binding
of the key wins; the Go maps involved never hold duplicate keys). -/
def lookupAssoc {α : Type} : List (String × α) → String → Option α
  | [], _ => none
  | (k, v) :: t, key => if k = key then some v else lookupAssoc t key

/-- Containment of `pat` as a contiguous run inside `l`;
Go `strings.Contains` on the underlying character lists. -/
def listSubstr : List Char → List Char → Bool
  | [], pat => pat.isEmpty
  | l@(_ :: t), pat => pat.isPrefixOf l || listSubstr t pat

/-- Go `strings.Contains s pat`: `pat` is a substring of `s`
(always true for the empty pattern). -/
def strContains (s pat : String) : Bool :=
  listSubstr s.data pat.data

/-- Go `strings.HasSuffix s pat`: `pat` is a suffix of `s`, computed on
the underlying character lists. -/
def strEndsWith (s pat : String) : Bool :=
  pat.data.isSuffixOf s.data

/-- Go `strings.Trim(s, "\"")` for the one character `"`: remove every
leading and trailing occurrence of `c` from `s`. -/
def trimChar (s : String) (c : Char) : String :=
  ⟨((s.data.dropWhile (· = c)).reverse.dropWhile (· = c)).reverse⟩

/-- Go `strings.Split` on a single-character separator, over character
lists: splits at every occurrence of `sep`, never returns an empty list. -/
def splitOnChar : List Char → Char → List (List Char)
  | [], _ => [[]]
  | c :: t, sep =>
    if c = sep then
      [] :: splitOnChar t sep
    else
      match splitOnChar t sep with
      | [] => [[c]]
      | h :: r => (c :: h) :: r

/-- Go `strings.ToLower` restricted to ASCII (every string the program
splits is a Kubernetes port name): lowercase each character. -/
def strToLower (s : String) : String :=
  ⟨s.data.map Char.toLower⟩

/-- Pod snapshot: the fields of `corev1.Pod` read by the program
(`pod.Name`, `pod.Labels`, `pod.Spec.ServiceAccountName`). -/
structure Pod where
  name : String
  labels : List (String × String)
  serviceAccountName : String
deriving DecidableEq, Repr

/-- Deployment snapshot: the field of `appsv1.Deployment` read by the
program (`deployment.Labels`). -/
structure Deployment where
  labels : List (String × String)
deriving DecidableEq, Repr

/-- One entry of `service.Spec.Ports`; the rules read only its name. -/
structure ServicePort where
  name : String
  port : Int
deriving DecidableEq, Repr

/-- Service snapshot: `service.Name`, `service.Labels` (a Go map that can
be nil, hence `Option`), and `service.Spec.Ports`. -/
structure Service where
  name : String
  labels : Option (List (String × String))
  ports : List ServicePort
deriving DecidableEq, Repr

/-- rules.go `RuleResult`. -/
structure RuleResult where
  Name : String
  Description : String
  Passed : Bool
deriving DecidableEq, Repr

/-- rules.go `ValidatePodServiceAccount`: false for an empty
`serviceAccountName`; otherwise true iff the pod carries an `app` label
whose value equals the `serviceAccountName`. (The Go nil-pod guard cannot
fire: every caller passes an element of a pod list.) -/
def ValidatePodServiceAccount (pod : Pod) (_appLabel : String) : Bool :=
  if pod.serviceAccountName = "" then
    false
  else
    match lookupAssoc pod.labels "app" with
    | some labelValue => pod.serviceAccountName = labelValue
    | none => false

/-- rules.go `ValidateDeploymentLabels`: false for an empty label map;
otherwise true iff both required keys `app` and `version` are present. -/
def ValidateDeploymentLabels (deployment : Deployment) : Bool :=
  if deployment.labels.length = 0 then
    false
  else
    ["app", "version"].all (fun label => (lookupAssoc deployment.labels label).isSome)

/-- rules.go `validProtocols`: the Istio protocol vocabulary for port names. -/
def validProtocols : List String :=
  ["http", "http2", "https", "tcp", "tls", "grpc", "mongo", "redis"]

/-- rules.go `ValidateServicePortNaming`: false when the service has no
ports; otherwise every port must have a non-empty name whose lowercased
part before the first `-` is one of `validProtocols`. -/
def ValidateServicePortNaming (service : Service) : Bool :=
  if service.ports.length = 0 then
    false
  else
    service.ports.all (fun port =>
      if port.name = "" then
        false
      else
        match splitOnChar (strToLower port.name).data '-' with
        | [] => false
        | p :: _ => validProtocols.contains ⟨p⟩)

/-- rules.go `ValidateServiceHasScrapeTLS`: false when the label map is
nil; otherwise true iff key `scrape_tls` is present with value exactly
`"true"`. -/
def ValidateServiceHasScrapeTLS (service : Service) : Bool :=
  match service.labels with
  | none => false
  | some m =>
    match lookupAssoc m "scrape_tls" with
    | some val => val = "true"
    | none => false

/-- pod.go `GetPodNamesByLabel`: list the pods matching `sel` through the
collaborator `env` and return their names; a collaborator error yields the
empty list. -/
def GetPodNamesByLabel (env : String → Except String (List Pod)) (sel : String) : List String :=
  match env sel with
  | .error _ => []
  | .ok pods => pods.map Pod.name

/-- Selector resolution of `renderTUI` (cmd main): try `app=<id>`, then
`app.kubernetes.io/name=<id>`, then the bare identifier, keeping the first
selector that matches pods. Returns `((labelSelector, podNames), trace)`
where `trace` records, in order, every selector string sent to the
pod-listing collaborator (`GetPodNamesByLabel` and `GetPodInfoByLabel`
each issue one List call per attempt, hence two trace entries). -/
def renderTUIResolve (env : String → Except String (List Pod)) (appLabel : String) :
    (String × List String) × List String :=
  let labelSelector := "app=" ++ appLabel
  let altLabelSelector := "app.kubernetes.io/name=" ++ appLabel
  let podNames := GetPodNamesByLabel env labelSelector
  let trace := [labelSelector, labelSelector]
  if podNames.length = 0 then
    let podNames := GetPodNamesByLabel env altLabelSelector
    let trace := trace ++ [altLabelSelector, altLabelSelector]
    if podNames.length = 0 then
      let podNames := GetPodNamesByLabel env appLabel
      let trace := trace ++ [appLabel, appLabel]
      if podNames.length = 0 then
        ((labelSelector, podNames), trace)
      else
        ((appLabel, podNames), trace)
    else
      ((altLabelSelector, podNames), trace)
  else
    ((labelSelector, podNames), trace)

/-- The Kubernetes collaborator surface used by rules.go `EvaluateRules`:
each lister takes a namespace and a label selector and either fails or
returns the matching items. -/
structure K8sEnv where
  listPods : String → String → Except String (List Pod)
  listDeployments : String → String → Except String (List Deployment)
  listServices : String → String → Except String (List Service)

/-- rules.go, inside `EvaluateRules`: the cleaned identifier for the
service lookups, `strings.Trim(strings.TrimPrefix(appLabel, "app="), "\"")`. -/
def cleanLabel (appLabel : String) : String :=
  trimChar ⟨if "app=".data.isPrefixOf appLabel.data then appLabel.data.drop 4 else appLabel.data⟩ '"'

/-- rules.go `EvaluateRules`: runs the four rules against the collaborator
`env` and returns their results in fixed order. Each collaborator error is
absorbed as "no items", degrading only the affected rule to failed. -/
def EvaluateRules (env : K8sEnv) (ns appLabel : String) : List RuleResult :=
  let podServiceAccountValid :=
    match env.listPods ns appLabel with
    | .error _ => false
    | .ok items =>
      decide (items.length > 0) && items.any (fun pod => ValidatePodServiceAccount pod appLabel)
  let deploymentLabelsValid :=
    match env.listDeployments ns appLabel with
    | .error _ => false
    | .ok items =>
      decide (items.length > 0) && items.any (fun deployment => ValidateDeploymentLabels deployment)
  let service : Option Service :=
    if appLabel = "" then
      none
    else
      ["app=" ++ cleanLabel appLabel,
       "argocd.argoproj.io/instance=" ++ cleanLabel appLabel].findSome?
        (fun selector =>
          match env.listServices ns selector with
          | .error _ => none
          | .ok items => items.head?)
  let servicePortsValid :=
    match service with
    | some s => ValidateServicePortNaming s
    | none => false
  let serviceScrapeTLSValid :=
    match service with
    | some s => ValidateServiceHasScrapeTLS s
    | none => false
  [{ Name := "Service Account",
     Description := "Pod serviceAccountName matches app label value",
     Passed := podServiceAccountValid },
   { Name := "Deployment Labels",
     Description := "Deployment has required labels (app, version)",
     Passed := deploymentLabelsValid },
   { Name := "Service Port Naming",
     Description := "Service (" ++ appLabel ++ ") ports follow Istio naming conventions",
     Passed := servicePortsValid },
   { Name := "Service scrape_tls Label",
     Description := "Service (" ++ appLabel ++ ") has label scrape_tls = true",
     Passed := serviceScrapeTLSValid }]

/-- The untyped value tree produced by Go `encoding/json.Unmarshal` into
`interface\x7b\x7d`: objects are association lists (one concrete iteration
order of the Go map), arrays are lists. -/
inductive Json where
  | str : String → Json
  | num : Int → Json
  | bool : Bool → Json
  | null : Json
  | arr : List Json → Json
  | obj : List (String × Json) → Json

/-- krakend.go `findServiceReferences`, inner host-array loop: scan the
entries of the backend `host` array in order and emit a citation for the
first string entry containing `serviceName`, then stop. -/
def scanHostArr (endpointPath serviceName : String) : List Json → List String
  | [] => []
  | h :: t =>
    match h with
    | .str hostStr =>
      if strContains hostStr serviceName then
        ["Endpoint: " ++ endpointPath ++ " → Host: " ++ hostStr]
      else
        scanHostArr endpointPath serviceName t
    | _ => scanHostArr endpointPath serviceName t

/-- krakend.go `findServiceReferences`, `url_pattern` check of the
backend-loop body: the citation appended when the backend key `url_pattern`
is a string containing `serviceName` (type assertion failure — missing
key or non-string — contributes nothing). -/
def backendUrlCites (endpointPath serviceName : String)
    (backendMap : List (String × Json)) : List String :=
  match lookupAssoc backendMap "url_pattern" with
  | some (.str url) =>
    if strContains url serviceName then
      ["Endpoint: " ++ endpointPath ++ " → Backend: " ++ url]
    else
      []
  | _ => []

/-- krakend.go `findServiceReferences`, `host` switch of the backend-loop
body: a citation when `host` is a string containing `serviceName`, the
first-match citation of `scanHostArr` when `host` is an array, nothing
otherwise. -/
def backendHostCites (endpointPath serviceName : String)
    (backendMap : List (String × Json)) : List String :=
  match lookupAssoc backendMap "host" with
  | some (.str host) =>
    if strContains host serviceName then
      ["Endpoint: " ++ endpointPath ++ " → Host: " ++ host]
    else
      []
  | some (.arr hostArr) => scanHostArr endpointPath serviceName hostArr
  | _ => []

/-- krakend.go `findServiceReferences`, backend loop: for each backend
mapping, append the `url_pattern` citation, then the `host` citation(s);
non-mapping backends are skipped. `acc` is the shared `references` slice
being appended to. -/
def scanBackends (endpointPath serviceName : String) (backends : List Json)
    (acc : List String) : List String :=
  match backends with
  | [] => acc
  | backend :: rest =>
    match backend with
    | .obj backendMap =>
      let acc1 := acc ++ backendUrlCites endpointPath serviceName backendMap
      let acc2 := acc1 ++ backendHostCites endpointPath serviceName backendMap
      scanBackends endpointPath serviceName rest acc2
    | _ => scanBackends endpointPath serviceName rest acc

/-- krakend.go `findServiceReferences`, endpoint loop: for each endpoint
mapping, compute the endpoint path (`"unknown"` when the `endpoint` key is
absent, not a string, or empty) and scan its `backend` array; endpoints
without a backend array, or that are not mappings, are skipped. -/
def scanEndpoints (serviceName : String) (endpoints : List Json)
    (acc : List String) : List String :=
  match endpoints with
  | [] => acc
  | endpoint :: rest =>
    match endpoint with
    | .obj endpointMap =>
      let endpointPath :=
        match lookupAssoc endpointMap "endpoint" with
        | some (.str s) => if s = "" then "unknown" else s
        | _ => "unknown"
      match lookupAssoc endpointMap "backend" with
      | some (.arr backends) =>
        scanEndpoints serviceName rest (scanBackends endpointPath serviceName backends acc)
      | _ => scanEndpoints serviceName rest acc
    | _ => scanEndpoints serviceName rest acc

/-- krakend.go `findServiceReferences` (the iterative variant in force):
citations for `serviceName` in the config document, in traversal order;
any shape mismatch yields the empty list. -/
def findServiceReferences (config : Json) (serviceName : String) : List String :=
  match config with
  | .obj configMap =>
    match lookupAssoc configMap "endpoints" with
    | some (.arr endpoints) => scanEndpoints serviceName endpoints []
    | _ => []
  | _ => []

/-- krakend.go `KrakenDBackendServiceCheck`, result loop: the numbered
reference lines, one per citation (`"  %d. %s\n"` with 1-based index). -/
def numberedRefs (i : Nat) : List String → String
  | [] => ""
  | r :: t => "  " ++ toString (i + 1) ++ ". " ++ r ++ "\n" ++ numberedRefs (i + 1) t

/-- krakend.go `KrakenDBackendServiceCheck`, tail of the function body:
parse the selected document with the collaborator `parseJson` (modelling
`json.Unmarshal` — an error there is surfaced), scan it, and build the
report string. -/
def krakendParseAndScan (parseJson : String → Option Json)
    (krakendConfig serviceName : String) : Except String String :=
  match parseJson krakendConfig with
  | none => .error "failed to parse KrakenD configuration"
  | some config =>
    let references := findServiceReferences config serviceName
    if references.length = 0 then
      .ok ("❌ Service " ++ serviceName ++ " not found in KrakenD backend configuration")
    else
      .ok ("✅ Service " ++ serviceName ++ " found in " ++ toString references.length
        ++ " backend configurations:\n" ++ numberedRefs 0 references)

/-- krakend.go `KrakenDBackendServiceCheck`, after the clientset nil
check: fetch the ConfigMap data through `env` and select the document
under key `krakend.json`; when that key is absent fall back to the first
`.json`-suffixed key (the map's iteration order being the list order),
erroring out when the fallback selects nothing or the empty string (the
Go code's `krakendConfig == ""` guard sits inside the `!exists` branch);
then parse and scan the document. -/
def KrakenDBackendServiceCheck (parseJson : String → Option Json)
    (env : Except String (List (String × String))) (serviceName : String) :
    Except String String :=
  match env with
  | .error e => .error ("failed to get ConfigMap: " ++ e)
  | .ok data =>
    match lookupAssoc data "krakend.json" with
    | some v => krakendParseAndScan parseJson v serviceName
    | none =>
      match data.find? (fun kv => strEndsWith kv.1 ".json") with
      | some kv =>
        if kv.2 = "" then
          .error "no JSON configuration found in ConfigMap"
        else
          krakendParseAndScan parseJson kv.2 serviceName
      | none => .error "no JSON configuration found in ConfigMap"

/-- The first string entry of a `host` array that contains `serviceName`,
if any: the citation `scanHostArr` stops at. -/
def firstHostMatch (serviceName : String) (hostArr : List Json) : Option String :=
  hostArr.findSome? (fun h =>
    match h with
    | .str s => if strContains s serviceName then some s else none
    | _ => none)

/-- The lowercased segment of a port name before its first `-`: what the
naming rule compares against the protocol vocabulary. -/
def portProtoSegment (name : String) : String :=
  ⟨(splitOnChar (strToLower name).data '-').headD []⟩

/-- True exactly on the `error` constructor of `Except`. -/
def exceptIsError {ε α : Type} : Except ε α → Bool
  | .error _ => true
  | .ok _ => false

/-- The document string `KrakenDBackendServiceCheck` selects from the
ConfigMap data: the value under `krakend.json`, else the value of the
first `.json`-suffixed key, else the empty string. -/
def selectedConfigDoc (data : List (String × String)) : String :=
  match lookupAssoc data "krakend.json" with
  | some v => v
  | none =>
    match data.find? (fun kv => strEndsWith kv.1 ".json") with
    | some kv => kv.2
    | none => ""

end K8sRulesViewer

namespace K8sRulesViewer

example : ValidateServicePortNaming ⟨"s", none, [⟨"http-api", 1⟩, ⟨"grpc", 2⟩, ⟨"", 3⟩]⟩ = false := by decide

example : ValidateServicePortNaming ⟨"s", none, [⟨"http-api", 1⟩, ⟨"grpc", 2⟩, ⟨"tcp-db", 3⟩]⟩ = true := by decide

example : ValidateServiceHasScrapeTLS ⟨"s", some [("scrape_tls", "True")], []⟩ = false := by decide

example : strContains "svc-x-helper" "svc-x" = true := by decide

example : strContains "a-svc" "svc-x" = false := by decide

example : strContains "anything" "" = true := by decide

example : trimChar "\"ab\"" '"' = "ab" := by decide

example : (renderTUIResolve (fun _ => .ok []) "x").1 = ("app=x", []) := by decide

example : cleanLabel "app=\"py-kannel\"" = "py-kannel" := by decide

/-- C1 (counterexample): with a collaborator finding no pods for any
selector, resolution for identifier `x` does NOT return the bare
identifier `x` as the claim states — it returns the first candidate
`app=x` (with the empty pod list). -/
theorem c1_all_empty_counterexample :
    (renderTUIResolve (fun _ => Except.ok []) "x").1 ≠ ("x", []) ∧
    (renderTUIResolve (fun _ => Except.ok []) "x").1 = ("app=x", []) := by
  decide

/-- C1 (amended): when all three candidate selectors yield an empty pod
set — a collaborator error counting as empty — resolution returns the
FIRST, most-specific candidate `app=<id>` (the `labelSelector` variable is
only updated on success) together with an empty pod list; being a total
function it never raises. -/
theorem c1_all_empty_resolves_to_first (env : String → Except String (List Pod))
    (id : String)
    (h1 : GetPodNamesByLabel env ("app=" ++ id) = [])
    (h2 : GetPodNamesByLabel env ("app.kubernetes.io/name=" ++ id) = [])
    (h3 : GetPodNamesByLabel env id = []) :
    (renderTUIResolve env id).1 = ("app=" ++ id, []) := by
  simp [renderTUIResolve, h1, h2, h3]

/-- C1 witness: the amended theorem applied to a collaborator that always
errors (errors count as empty matches). -/
theorem c1_all_empty_resolves_to_first_witness :
    GetPodNamesByLabel (fun _ => Except.error "unavailable") "app=svc" = [] ∧
    GetPodNamesByLabel (fun _ => Except.error "unavailable") "app.kubernetes.io/name=svc" = [] ∧
    GetPodNamesByLabel (fun _ => Except.error "unavailable") "svc" = [] ∧
    (renderTUIResolve (fun _ => Except.error "unavailable") "svc").1 = ("app=svc", []) :=
  ⟨rfl, rfl, rfl,
    c1_all_empty_resolves_to_first (fun _ => Except.error "unavailable") "svc" rfl rfl rfl⟩

/-- C8: when the first candidate selector `app=<id>` yields at least one
pod, the trace of selectors sent to the pod-listing collaborator consists
of the first candidate only (once for the name query, once for the info
query), and the first candidate is the resolved selector. -/
theorem c8_first_match_short_circuits (env : String → Except String (List Pod))
    (id : String)
    (h : (GetPodNamesByLabel env ("app=" ++ id)).length > 0) :
    (renderTUIResolve env id).2 = ["app=" ++ id, "app=" ++ id] ∧
    (renderTUIResolve env id).1.1 = "app=" ++ id := by
  have hne : ¬ (GetPodNamesByLabel env ("app=" ++ id)).length = 0 := by omega
  simp [renderTUIResolve, hne]

/-- C8 witness: a collaborator that matches one pod for every selector;
the first candidate wins and is the only one queried. -/
theorem c8_first_match_short_circuits_witness :
    (GetPodNamesByLabel (fun _ => Except.ok [⟨"pod-1", [], ""⟩]) "app=svc").length > 0 ∧
    (renderTUIResolve (fun _ => Except.ok [⟨"pod-1", [], ""⟩]) "svc").2 = ["app=svc", "app=svc"] ∧
    (renderTUIResolve (fun _ => Except.ok [⟨"pod-1", [], ""⟩]) "svc").1.1 = "app=svc" := by
  refine ⟨by decide, ?_⟩
  exact c8_first_match_short_circuits (fun _ => Except.ok [⟨"pod-1", [], ""⟩]) "svc" (by decide)

theorem splitOnChar_ne_nil (l : List Char) (c : Char) : splitOnChar l c ≠ [] := by
  cases l with
  | nil => simp [splitOnChar]
  | cons a t =>
    unfold splitOnChar
    split
    · simp
    · split <;> simp

theorem contains_iff_mem (l : List String) (s : String) :
    l.contains s = true ↔ s ∈ l := by
  induction l with
  | nil => simp
  | cons a t ih =>
    simp only [List.contains_cons, Bool.or_eq_true, beq_iff_eq, ih, List.mem_cons]

/-- C4: the Service Port Naming rule holds exactly when the service has at
least one port and every port name is non-empty with its lowercased
segment before the first dash in the protocol vocabulary; the spec's two
example port lists evaluate as stated. -/
theorem c4_port_naming_iff :
    (∀ s : Service,
      ValidateServicePortNaming s = true ↔
        s.ports ≠ [] ∧ ∀ p ∈ s.ports, p.name ≠ "" ∧ portProtoSegment p.name ∈ validProtocols)
    ∧ ValidateServicePortNaming ⟨"s", none, [⟨"http-api", 1⟩, ⟨"grpc", 2⟩, ⟨"", 3⟩]⟩ = false
    ∧ ValidateServicePortNaming ⟨"s", none, [⟨"http-api", 1⟩, ⟨"grpc", 2⟩, ⟨"tcp-db", 3⟩]⟩ = true := by
  have hpoint : ∀ name : String,
      (if name = "" then false
       else
         match splitOnChar (strToLower name).data '-' with
         | [] => false
         | q :: _ => validProtocols.contains ⟨q⟩) = true
      ↔ (name ≠ "" ∧ portProtoSegment name ∈ validProtocols) := by
    intro name
    by_cases hname : name = ""
    · simp [hname]
    · rw [if_neg hname]
      cases hsp : splitOnChar (strToLower name).data '-' with
      | nil => exact absurd hsp (splitOnChar_ne_nil _ _)
      | cons q t =>
        simp [portProtoSegment, hsp, contains_iff_mem, hname]
  refine ⟨fun s => ?_, by decide, by decide⟩
  unfold ValidateServicePortNaming
  split
  · have hnil : s.ports = [] := List.length_eq_zero.mp (by omega)
    simp [hnil]
  · have hne : s.ports ≠ [] := by
      intro hnil
      simp [hnil] at *
    rw [List.all_eq_true]
    constructor
    · intro h
      exact ⟨hne, fun p hp => (hpoint p.name).mp (h p hp)⟩
    · rintro ⟨-, h⟩ p hp
      exact (hpoint p.name).mpr (h p hp)

/-- C6: the Service scrape_tls Label rule holds exactly when the label map
is present and carries key `scrape_tls` with value exactly `"true"`; the
near-miss values `"True"`, `"1"`, `""`, a missing key and a nil label map
all fail. -/
theorem c6_scrape_tls_iff :
    (∀ s : Service, ValidateServiceHasScrapeTLS s = true ↔
      ∃ m, s.labels = some m ∧ lookupAssoc m "scrape_tls" = some "true")
    ∧ ValidateServiceHasScrapeTLS ⟨"s", some [("scrape_tls", "true")], []⟩ = true
    ∧ ValidateServiceHasScrapeTLS ⟨"s", some [("scrape_tls", "True")], []⟩ = false
    ∧ ValidateServiceHasScrapeTLS ⟨"s", some [("scrape_tls", "1")], []⟩ = false
    ∧ ValidateServiceHasScrapeTLS ⟨"s", some [("scrape_tls", "")], []⟩ = false
    ∧ ValidateServiceHasScrapeTLS ⟨"s", some [("other", "true")], []⟩ = false
    ∧ ValidateServiceHasScrapeTLS ⟨"s", none, []⟩ = false := by
  refine ⟨fun s => ?_, by decide, by decide, by decide, by decide, by decide, by decide⟩
  unfold ValidateServiceHasScrapeTLS
  cases s.labels with
  | none => simp [*]
  | some m =>
    cases h : lookupAssoc m "scrape_tls" <;> simp [*]

theorem validatePodServiceAccount_iff (p : Pod) (lbl : String) :
    ValidatePodServiceAccount p lbl = true ↔
      p.serviceAccountName ≠ "" ∧ lookupAssoc p.labels "app" = some p.serviceAccountName := by
  unfold ValidatePodServiceAccount
  by_cases hsa : p.serviceAccountName = ""
  · simp [hsa]
  · rw [if_neg hsa]
    cases h : lookupAssoc p.labels "app" with
    | none => simp [h, hsa]
    | some v => simp [h, hsa, eq_comm]

/-- C7: the first entry of the report (the Service Account rule) passes
exactly when the pod listing for the supplied selector succeeds and some
returned pod has a non-empty serviceAccountName equal to its own `app`
label value; an error, an empty list, a missing label or a mismatch all
leave it failing. -/
theorem c7_service_account_rule (env : K8sEnv) (ns label : String) :
    ((EvaluateRules env ns label).head?).map RuleResult.Passed = some true ↔
      ∃ pods, env.listPods ns label = Except.ok pods ∧
        ∃ p ∈ pods, p.serviceAccountName ≠ "" ∧
          lookupAssoc p.labels "app" = some p.serviceAccountName := by
  simp only [EvaluateRules, List.head?_cons, Option.map_some', Option.some.injEq]
  cases henv : env.listPods ns label with
  | error e => simp
  | ok items =>
    rw [Bool.and_eq_true, List.any_eq_true]
    constructor
    · rintro ⟨-, p, hp, hvp⟩
      exact ⟨items, rfl, p, hp, (validatePodServiceAccount_iff p label).mp hvp⟩
    · rintro ⟨pods, hpods, p, hp, hc⟩
      obtain rfl : items = pods := by
        simpa using hpods
      refine ⟨?_, p, hp, (validatePodServiceAccount_iff p label).mpr hc⟩
      simpa using List.length_pos.mpr (List.ne_nil_of_mem hp)

/-- C3: the report always has exactly the four rules, in fixed order, by
their fixed names; a failing pod listing only forces the first rule to
fail, a failing deployment listing only the second, and failure of both
service lookups only the third and fourth — never an abort (the
evaluation is a total function returning the full report). -/
theorem c3_report_shape (env : K8sEnv) (ns label : String) :
    ((EvaluateRules env ns label).map RuleResult.Name =
        ["Service Account", "Deployment Labels", "Service Port Naming",
         "Service scrape_tls Label"])
    ∧ (∀ e, env.listPods ns label = Except.error e →
        ((EvaluateRules env ns label).head?).map RuleResult.Passed = some false)
    ∧ (∀ e, env.listDeployments ns label = Except.error e →
        ((EvaluateRules env ns label)[1]?).map RuleResult.Passed = some false)
    ∧ (∀ e₁ e₂, env.listServices ns ("app=" ++ cleanLabel label) = Except.error e₁ →
        env.listServices ns ("argocd.argoproj.io/instance=" ++ cleanLabel label) = Except.error e₂ →
        ((EvaluateRules env ns label)[2]?).map RuleResult.Passed = some false ∧
        ((EvaluateRules env ns label)[3]?).map RuleResult.Passed = some false) := by
  refine ⟨by simp [EvaluateRules], fun e he => ?_, fun e he => ?_, fun e₁ e₂ h₁ h₂ => ?_⟩
  · simp [EvaluateRules, he]
  · simp [EvaluateRules, he]
  · by_cases hl : label = "" <;>
      simp [EvaluateRules, hl, h₁, h₂, List.findSome?]

/-- C3 witness: with every collaborator call failing, the report still has
the four rules in order and each affected rule merely fails. -/
theorem c3_report_shape_witness :
    ((EvaluateRules ⟨fun _ _ => Except.error "down", fun _ _ => Except.error "down",
        fun _ _ => Except.error "down"⟩ "default" "py-kannel").map RuleResult.Name =
      ["Service Account", "Deployment Labels", "Service Port Naming",
       "Service scrape_tls Label"])
    ∧ ((EvaluateRules ⟨fun _ _ => Except.error "down", fun _ _ => Except.error "down",
        fun _ _ => Except.error "down"⟩ "default" "py-kannel").head?).map RuleResult.Passed
        = some false
    ∧ ((EvaluateRules ⟨fun _ _ => Except.error "down", fun _ _ => Except.error "down",
        fun _ _ => Except.error "down"⟩ "default" "py-kannel")[1]?).map RuleResult.Passed
        = some false
    ∧ ((EvaluateRules ⟨fun _ _ => Except.error "down", fun _ _ => Except.error "down",
        fun _ _ => Except.error "down"⟩ "default" "py-kannel")[2]?).map RuleResult.Passed
        = some false
    ∧ ((EvaluateRules ⟨fun _ _ => Except.error "down", fun _ _ => Except.error "down",
        fun _ _ => Except.error "down"⟩ "default" "py-kannel")[3]?).map RuleResult.Passed
        = some false := by
  have h := c3_report_shape ⟨fun _ _ => Except.error "down", fun _ _ => Except.error "down",
    fun _ _ => Except.error "down"⟩ "default" "py-kannel"
  exact ⟨h.1, h.2.1 "down" rfl, h.2.2.1 "down" rfl,
    (h.2.2.2 "down" "down" rfl rfl).1, (h.2.2.2 "down" "down" rfl rfl).2⟩

theorem scanBackends_acc (path svc : String) (bs : List Json) (acc : List String) :
    scanBackends path svc bs acc = acc ++ scanBackends path svc bs [] := by
  induction bs generalizing acc with
  | nil => simp [scanBackends]
  | cons b rest ih =>
    cases b with
    | obj bm =>
      simp only [scanBackends]
      rw [ih ((acc ++ backendUrlCites path svc bm) ++ backendHostCites path svc bm),
        ih ((([] : List String) ++ backendUrlCites path svc bm) ++ backendHostCites path svc bm)]
      simp [List.append_assoc]
    | str s => simpa only [scanBackends] using ih acc
    | num n => simpa only [scanBackends] using ih acc
    | bool b => simpa only [scanBackends] using ih acc
    | null => simpa only [scanBackends] using ih acc
    | arr l => simpa only [scanBackends] using ih acc

theorem scanEndpoints_cons (svc : String) (e : Json) (rest : List Json) (acc : List String) :
    scanEndpoints svc (e :: rest) acc =
      scanEndpoints svc rest (acc ++ scanEndpoints svc [e] []) := by
  cases e with
  | obj em =>
    simp only [scanEndpoints]
    cases hb : lookupAssoc em "backend" with
    | none => simp
    | some j =>
      cases j with
      | arr bs =>
        dsimp only
        rw [scanBackends_acc]
      | str s => simp
      | num n => simp
      | bool b => simp
      | null => simp
      | obj o => simp
  | str s => simp [scanEndpoints]
  | num n => simp [scanEndpoints]
  | bool b => simp [scanEndpoints]
  | null => simp [scanEndpoints]
  | arr l => simp [scanEndpoints]

theorem scanEndpoints_acc (svc : String) (eps : List Json) (acc : List String) :
    scanEndpoints svc eps acc = acc ++ scanEndpoints svc eps [] := by
  induction eps generalizing acc with
  | nil => simp [scanEndpoints]
  | cons e rest ih =>
    rw [scanEndpoints_cons, scanEndpoints_cons svc e rest []]
    rw [ih (acc ++ scanEndpoints svc [e] []), ih (([] : List String) ++ scanEndpoints svc [e] [])]
    simp [List.append_assoc]

theorem scanEndpoints_join (svc : String) (eps : List Json) :
    scanEndpoints svc eps [] = (eps.map (fun e => scanEndpoints svc [e] [])).flatten := by
  induction eps with
  | nil => simp [scanEndpoints]
  | cons e rest ih =>
    rw [scanEndpoints_cons, scanEndpoints_acc, ih]
    simp

theorem scanBackends_cons_obj (path svc : String) (bm : List (String × Json))
    (rest : List Json) (acc : List String) :
    scanBackends path svc (Json.obj bm :: rest) acc =
      acc ++ backendUrlCites path svc bm ++ backendHostCites path svc bm ++
        scanBackends path svc rest [] := by
  simp only [scanBackends]
  rw [scanBackends_acc]

theorem scanHostArr_eq (path svc : String) (hs : List Json) :
    scanHostArr path svc hs =
      match firstHostMatch svc hs with
      | some s => ["Endpoint: " ++ path ++ " → Host: " ++ s]
      | none => [] := by
  induction hs with
  | nil => simp [scanHostArr, firstHostMatch]
  | cons h t ih =>
    cases h with
    | str s =>
      cases hc : strContains s svc with
      | true => simp [scanHostArr, firstHostMatch, hc]
      | false => simp [scanHostArr, firstHostMatch, hc, ih]
    | num n => simp [scanHostArr, firstHostMatch, ih]
    | bool b => simp [scanHostArr, firstHostMatch, ih]
    | null => simp [scanHostArr, firstHostMatch, ih]
    | arr l => simp [scanHostArr, firstHostMatch, ih]
    | obj o => simp [scanHostArr, firstHostMatch, ih]

/-- C5: the `host` array of a backend yields at most one citation — exactly the
one for the first entry containing the target, scanning stopping there;
within a backend the `url_pattern` citation precedes the `host`
citation(s); citations are emitted in traversal order (endpoints in
order, and within an endpoint its backends in order); and the spec's
example `host: [a-svc, svc-x-helper]` with target `svc-x` yields exactly
the one citation for `svc-x-helper`. -/
theorem c5_host_first_match_only :
    (∀ path svc hs, (scanHostArr path svc hs).length ≤ 1)
    ∧ (∀ path svc hs, scanHostArr path svc hs =
        match firstHostMatch svc hs with
        | some s => ["Endpoint: " ++ path ++ " → Host: " ++ s]
        | none => [])
    ∧ (∀ path svc bm rest acc, scanBackends path svc (Json.obj bm :: rest) acc =
        acc ++ backendUrlCites path svc bm ++ backendHostCites path svc bm ++
          scanBackends path svc rest [])
    ∧ (∀ svc eps, findServiceReferences (Json.obj [("endpoints", Json.arr eps)]) svc =
        (eps.map (fun e => scanEndpoints svc [e] [])).flatten)
    ∧ findServiceReferences (Json.obj [("endpoints", Json.arr [Json.obj
        [("endpoint", Json.str "/a"),
         ("backend", Json.arr [Json.obj [("host",
            Json.arr [Json.str "a-svc", Json.str "svc-x-helper"])]])]])]) "svc-x"
      = ["Endpoint: /a → Host: svc-x-helper"] := by
  refine ⟨fun path svc hs => ?_, scanHostArr_eq, scanBackends_cons_obj, fun svc eps => ?_,
    by decide⟩
  · rw [scanHostArr_eq]
    cases firstHostMatch svc hs <;> simp
  · simp only [findServiceReferences, lookupAssoc, if_pos rfl]
    exact scanEndpoints_join svc eps

/-- C10: a backend whose `url_pattern` contains the target and whose
`host` (a string, or an array whose sole entry is that string) also
contains it yields two citations, the `url_pattern` one first; the
host first-match-only rule does not suppress the `url_pattern` citation. -/
theorem c10_url_and_host_both_cited (p url host svc : String)
    (hp : p ≠ "")
    (hu : strContains url svc = true) (hh : strContains host svc = true) :
    findServiceReferences (Json.obj [("endpoints", Json.arr [Json.obj
        [("endpoint", Json.str p),
         ("backend", Json.arr [Json.obj [("url_pattern", Json.str url),
            ("host", Json.str host)]])]])]) svc
      = ["Endpoint: " ++ p ++ " → Backend: " ++ url,
         "Endpoint: " ++ p ++ " → Host: " ++ host]
    ∧ findServiceReferences (Json.obj [("endpoints", Json.arr [Json.obj
        [("endpoint", Json.str p),
         ("backend", Json.arr [Json.obj [("url_pattern", Json.str url),
            ("host", Json.arr [Json.str host])]])]])]) svc
      = ["Endpoint: " ++ p ++ " → Backend: " ++ url,
         "Endpoint: " ++ p ++ " → Host: " ++ host] := by
  constructor <;>
    simp [findServiceReferences, lookupAssoc, scanEndpoints, scanBackends,
      backendUrlCites, backendHostCites, scanHostArr, hp, hu, hh]

/-- C10 witness: the two-citation behavior at a concrete backend carrying
both a matching `url_pattern` and a matching `host`. -/
theorem c10_url_and_host_both_cited_witness :
    (("/a" : String) ≠ "")
    ∧ strContains "http://svc-x/path" "svc-x" = true
    ∧ strContains "svc-x-helper" "svc-x" = true
    ∧ findServiceReferences (Json.obj [("endpoints", Json.arr [Json.obj
        [("endpoint", Json.str "/a"),
         ("backend", Json.arr [Json.obj [("url_pattern", Json.str "http://svc-x/path"),
            ("host", Json.str "svc-x-helper")]])]])]) "svc-x"
      = ["Endpoint: /a → Backend: http://svc-x/path",
         "Endpoint: /a → Host: svc-x-helper"] :=
  ⟨by decide, by decide, by decide,
    (c10_url_and_host_both_cited "/a" "http://svc-x/path" "svc-x-helper" "svc-x"
      (by decide) (by decide) (by decide)).1⟩

theorem strContains_empty_pat (s : String) : strContains s "" = true := by
  unfold strContains
  cases s.data with
  | nil => rfl
  | cons c t => simp [listSubstr, List.isPrefixOf]

/-- C2 (counterexample): calling the reference scan with an empty target
name does NOT fail fast — on a concrete document with one backend,
KrakenDBackendServiceCheck returns a success result (no error) and
findServiceReferences returns a non-empty citation list. -/
theorem c2_empty_target_counterexample :
    exceptIsError (KrakenDBackendServiceCheck
      (fun s => if s = "D"
        then some (Json.obj [("endpoints", Json.arr [Json.obj
          [("endpoint", Json.str "/a"),
           ("backend", Json.arr [Json.obj
             [("url_pattern", Json.str "http://upstream/x")]])]])])
        else none)
      (Except.ok [("krakend.json", "D")]) "") = false
    ∧ findServiceReferences (Json.obj [("endpoints", Json.arr [Json.obj
        [("endpoint", Json.str "/a"),
         ("backend", Json.arr [Json.obj
           [("url_pattern", Json.str "http://upstream/x")]])]])]) ""
      ≠ [] := by
  refine ⟨by decide, by decide⟩

/-- C2 (amended): an empty target name is silently accepted rather than
rejected: every string contains the empty target, so each backend with a
string `url_pattern` yields its citation, and the check reports success
instead of raising an invalid-input error. -/
theorem c2_empty_target_accepted (p u : String) (hp : p ≠ "") :
    strContains u "" = true
    ∧ findServiceReferences (Json.obj [("endpoints", Json.arr [Json.obj
        [("endpoint", Json.str p),
         ("backend", Json.arr [Json.obj [("url_pattern", Json.str u)]])]])]) ""
      = ["Endpoint: " ++ p ++ " → Backend: " ++ u]
    ∧ exceptIsError (KrakenDBackendServiceCheck
        (fun s => if s = "D" then some (Json.obj [("endpoints", Json.arr [Json.obj
          [("endpoint", Json.str p),
           ("backend", Json.arr [Json.obj [("url_pattern", Json.str u)]])]])]) else none)
        (Except.ok [("krakend.json", "D")]) "") = false := by
  refine ⟨strContains_empty_pat u, ?_, ?_⟩
  · simp [findServiceReferences, lookupAssoc, scanEndpoints, scanBackends,
      backendUrlCites, backendHostCites, hp, strContains_empty_pat]
  · simp [KrakenDBackendServiceCheck, krakendParseAndScan, numberedRefs, lookupAssoc,
      findServiceReferences, scanEndpoints, scanBackends, backendUrlCites,
      backendHostCites, hp, strContains_empty_pat, exceptIsError]

/-- C2 witness for the amended claim, at a concrete endpoint path and
url_pattern. -/
theorem c2_empty_target_accepted_witness :
    (("/a" : String) ≠ "")
    ∧ findServiceReferences (Json.obj [("endpoints", Json.arr [Json.obj
        [("endpoint", Json.str "/a"),
         ("backend", Json.arr [Json.obj [("url_pattern", Json.str "http://u")]])]])]) ""
      = ["Endpoint: /a → Backend: http://u"] :=
  ⟨by decide, (c2_empty_target_accepted "/a" "http://u" (by decide)).2.1⟩

/-- C9: with the ConfigMap fetched, the check surfaces an error exactly
when no document can be selected (key `krakend.json` absent and no
`.json`-suffixed key present) or the selected document fails to parse
(the real `json.Unmarshal` rejects the empty string, hence the hypothesis
on the abstract parser); and when `krakend.json` is absent, the first
`.json`-suffixed key's non-empty value is the document used — the check
behaves as if the ConfigMap held exactly that value under `krakend.json`. -/
theorem c9_error_iff (parseJson : String → Option Json)
    (data : List (String × String)) (svc : String)
    (hparse : parseJson "" = none) :
    (exceptIsError (KrakenDBackendServiceCheck parseJson (Except.ok data) svc) = true ↔
      (lookupAssoc data "krakend.json" = none ∧
        data.find? (fun kv => strEndsWith kv.1 ".json") = none)
      ∨ parseJson (selectedConfigDoc data) = none)
    ∧ (∀ kv, lookupAssoc data "krakend.json" = none →
        data.find? (fun kv2 => strEndsWith kv2.1 ".json") = some kv → kv.2 ≠ "" →
        KrakenDBackendServiceCheck parseJson (Except.ok data) svc =
          KrakenDBackendServiceCheck parseJson (Except.ok [("krakend.json", kv.2)]) svc) := by
  have hscan : ∀ doc, exceptIsError (krakendParseAndScan parseJson doc svc) = true ↔
      parseJson doc = none := by
    intro doc
    unfold krakendParseAndScan
    cases hv : parseJson doc with
    | none => simp [exceptIsError]
    | some config =>
      by_cases hr : (findServiceReferences config svc).length = 0 <;>
        simp [hr, exceptIsError]
  constructor
  · unfold KrakenDBackendServiceCheck selectedConfigDoc
    dsimp only
    cases hk : lookupAssoc data "krakend.json" with
    | some v => simp [hscan v]
    | none =>
      cases hf : data.find? (fun kv => strEndsWith kv.1 ".json") with
      | none => simp [exceptIsError, hparse]
      | some kv =>
        by_cases hempty : kv.2 = ""
        · simp [hempty, exceptIsError, hparse]
        · simp [hempty, hscan kv.2]
  · intro kv hk hf hne
    unfold KrakenDBackendServiceCheck
    dsimp only
    rw [hk, hf]
    dsimp only
    rw [if_neg hne]
    simp [lookupAssoc]

/-- C9 witness: a ConfigMap without `krakend.json` but with `conf.json`,
and a parser accepting exactly that document. -/
theorem c9_error_iff_witness :
    (fun s => if s = "J" then some (Json.obj []) else none) "" = (none : Option Json)
    ∧ (exceptIsError (KrakenDBackendServiceCheck
        (fun s => if s = "J" then some (Json.obj []) else none)
        (Except.ok [("conf.json", "J")]) "svc") = true ↔
      (lookupAssoc [("conf.json", "J")] "krakend.json" = none ∧
        [("conf.json", "J")].find? (fun kv => strEndsWith kv.1 ".json") = none)
      ∨ (fun s => if s = "J" then some (Json.obj []) else none)
          (selectedConfigDoc [("conf.json", "J")]) = none)
    ∧ KrakenDBackendServiceCheck (fun s => if s = "J" then some (Json.obj []) else none)
        (Except.ok [("conf.json", "J")]) "svc" =
      KrakenDBackendServiceCheck (fun s => if s = "J" then some (Json.obj []) else none)
        (Except.ok [("krakend.json", "J")]) "svc" :=
  ⟨rfl,
    (c9_error_iff (fun s => if s = "J" then some (Json.obj []) else none)
      [("conf.json", "J")] "svc" rfl).1,
    (c9_error_iff (fun s => if s = "J" then some (Json.obj []) else none)
      [("conf.json", "J")] "svc" rfl).2 ("conf.json", "J") rfl rfl (by decide)⟩

end K8sRulesViewer
